import Mathlib

set_option maxHeartbeats 1000000
set_option maxRecDepth 2000

/-!
Verification development for the platformio-mcp command execution and
validation layer.  The definitions below are a shallow embedding of
`src/platformio.ts`, `src/utils/validation.ts`, `src/utils/errors.ts`,
`src/tools/libraries.ts` and `src/tools/devices.ts`.  The operating-system
side of `child_process.execFile` is modelled abstractly as a function from
binary name, argument vector, working directory and timeout to a spawn
outcome; everything the TypeScript code itself does with that outcome is
translated directly from the source.
-/

/-- Substring occurrence on character lists: true when the first list occurs
contiguously inside the second.  Models JavaScript String.prototype.includes. -/
def listIncludes (sub : List Char) : List Char → Bool
  | [] => sub.isEmpty
  | c :: rest => sub.isPrefixOf (c :: rest) || listIncludes sub rest

/-- Substring test on strings: strIncludes s sub models s.includes(sub). -/
def strIncludes (s sub : String) : Bool :=
  listIncludes sub.toList s.toList

/-- Whitespace in the sense of String.prototype.trim, restricted to the ASCII
range the sources can produce. -/
def isTrimWs (c : Char) : Bool :=
  c == ' ' || c == '\t' || c == '\n' || c == '\r' || c == Char.ofNat 11 || c == Char.ofNat 12

/-- Model of String.prototype.trim via character lists (the core String.trim
does not reduce inside the kernel). -/
def trimStr (s : String) : String :=
  String.mk (((s.toList.dropWhile isTrimWs).reverse.dropWhile isTrimWs).reverse)

/-- Model of String.prototype.toLowerCase on the ASCII range, via character
lists. -/
def toLowerStr (s : String) : String :=
  String.mk (s.toList.map Char.toLower)

/-- Splits a character list at slashes, keeping empty segments, like
String.prototype.split with a slash separator. -/
def splitSlashAux : List Char → List Char → List String
  | [], acc => [String.mk acc.reverse]
  | c :: rest, acc =>
    if c == '/' then String.mk acc.reverse :: splitSlashAux rest []
    else splitSlashAux rest (c :: acc)

/-- Path split on slash separators. -/
def splitSlash (s : String) : List String :=
  splitSlashAux s.toList []

/-- Model of String.prototype.substring from zero to a bound, via character
lists (the core String.take does not reduce shallowly). -/
def takeStr (s : String) (n : Nat) : String :=
  String.mk (s.toList.take n)

/-- True when the string begins with a slash. -/
def startsSlash (s : String) : Bool :=
  match s.toList with
  | c :: _ => c == '/'
  | [] => false

/-- True when the string ends with a slash. -/
def endsSlash (s : String) : Bool :=
  match s.toList.getLast? with
  | some c => c == '/'
  | none => false

/-- Code value attached to a JavaScript error object: either a numeric exit
code or a string code such as ENOENT. -/
inductive ErrCode where
  | num (n : Int)
  | str (s : String)
deriving DecidableEq

/-- JavaScript truthiness of a code value (0 and the empty string are falsy). -/
def ErrCode.truthy : ErrCode → Bool
  | .num n => decide (n ≠ 0)
  | .str s => decide (s ≠ "")

/-- Model of a JavaScript Error object as observed by execPioCommand: exactly
the fields the source reads.  A missing (undefined) field is none, and the
boolean killed flag is false when undefined. -/
structure JsError where
  name : String
  message : String
  killed : Bool
  signal : Option String
  code : Option ErrCode
  stdout : Option String
  stderr : Option String
deriving DecidableEq

/-- Embedding of isPlatformIONotFoundError from src/src/utils/errors.ts
(lines 186-197): a lowercased-message heuristic deciding that an error means
the PlatformIO binary was not found. -/
def isPlatformIONotFoundError (error : JsError) : Bool :=
  let message := toLowerStr error.message
  strIncludes message "enoent" ||
  strIncludes message "not found" ||
  strIncludes message "command not found" ||
  (strIncludes message "platformio" && strIncludes message "not recognized")

/-- Outcome of one execFileAsync invocation: fulfilled with stdout and stderr,
or rejected with an error object. -/
inductive SpawnResult where
  | ok (stdout stderr : String)
  | err (e : JsError)

/-- Environment model: what running a binary with an argument vector, an
optional working directory and a timeout does.  The code under test is a
function of this oracle. -/
abbrev Spawn := String → List String → Option String → Nat → SpawnResult

/-- Modelled from the spec: CommandResult from src/types.ts (a file absent
from the sources): the record { stdout, stderr, exitCode } every invocation
produces.  The exit code keeps the raw JavaScript value execPioCommand stores
there (a number on the clean path, error.code on the non-zero-exit path). -/
structure CommandResult where
  stdout : String
  stderr : String
  exitCode : ErrCode
deriving DecidableEq

/-- Options accepted by execPioCommand; none models an omitted field. -/
structure ExecOptions where
  cwd : Option String := none
  timeout : Option Nat := none
deriving DecidableEq

/-- Default timeout for commands, from src/platformio.ts line 19 (5 minutes). -/
def DEFAULT_TIMEOUT : Nat := 300000

/-- Single-quote character, used when reproducing source message strings. -/
def quoteCh : String := String.singleton (Char.ofNat 39)

/-- Error taxonomy raised by the executor layer, one constructor per distinct
throw site: the three PlatformIOError kinds of parsePioJsonOutput, the
COMMAND_FAILED error of executeWithJsonOutput, PlatformIONotInstalledError,
CommandTimeoutError, and a rethrown plain JavaScript error. -/
inductive PioError where
  | emptyOutput
  | schemaErr (issues : List String) (sample : String)
  | invalidJson (jsMessage : String) (sample : String)
  | commandFailed (command : String) (argsJoined : String) (stderr : String) (exitCode : ErrCode)
  | notInstalled
  | timedOut (command : String) (ms : Nat)
  | js (e : JsError)
deriving DecidableEq

/-- Which errors are instances of the PlatformIOError class: every constructor
built from the error classes of src/utils/errors.ts, but not a rethrown plain
JavaScript error. -/
def PioError.isPio : PioError → Bool
  | .js _ => false
  | _ => true

/-- Runtime name of the error, as Error.prototype.toString would report it. -/
def PioError.name : PioError → String
  | .notInstalled => "PlatformIONotInstalledError"
  | .timedOut _ _ => "CommandTimeoutError"
  | .js e => e.name
  | _ => "PlatformIOError"

/-- Message text of each error, copied from the corresponding constructor call
in the source.  The schema-error message embeds the Zod issues (modelled as a
list of field-level issue strings). -/
def PioError.message : PioError → String
  | .emptyOutput => "Empty output from PlatformIO command"
  | .schemaErr issues _ => "Failed to parse PlatformIO output: " ++ String.intercalate "; " issues
  | .invalidJson m _ => "Invalid JSON output from PlatformIO: " ++ m
  | .commandFailed cmd argsJoined _ _ => "PlatformIO command failed: " ++ cmd ++ " " ++ argsJoined
  | .notInstalled => "PlatformIO CLI is not installed or not found in PATH"
  | .timedOut c ms => "Command " ++ quoteCh ++ c ++ quoteCh ++ " timed out after " ++ toString ms ++ "ms"
  | .js e => e.message

/-- String(error) for an error object: name, colon, message. -/
def PioError.errString (e : PioError) : String :=
  if e.message = "" then e.name else e.name ++ ": " ++ e.message

/-- The PlatformIONotInstalledError object thrown inside execPioCommand when
both binaries are missing, as it appears to the enclosing catch block
(src/utils/errors.ts lines 23-28: name, default message, code). -/
def notInstalledJsError : JsError :=
  { name := "PlatformIONotInstalledError"
    message := "PlatformIO CLI is not installed or not found in PATH"
    killed := false
    signal := none
    code := some (ErrCode.str "PLATFORMIO_NOT_INSTALLED")
    stdout := none
    stderr := none }

/-- Inner try of execPioCommand (src/platformio.ts lines 34-61): try the pio
binary; on a not-found error retry the platformio binary with the same
arguments; if that also fails with not-found, throw
PlatformIONotInstalledError; otherwise rethrow. -/
def tryPioBinaries (spawn : Spawn) (args : List String) (cwd : Option String)
    (timeout : Nat) : Except JsError (String × String) :=
  match spawn "pio" args cwd timeout with
  | SpawnResult.ok out err => Except.ok (out, err)
  | SpawnResult.err firstError =>
    if isPlatformIONotFoundError firstError then
      match spawn "platformio" args cwd timeout with
      | SpawnResult.ok out err => Except.ok (out, err)
      | SpawnResult.err secondError =>
        if isPlatformIONotFoundError secondError then Except.error notInstalledJsError
        else Except.error secondError
    else Except.error firstError

/-- Outer catch of execPioCommand (src/platformio.ts lines 68-89): a killed
SIGTERM process becomes CommandTimeoutError carrying the joined command and
the timeout; a not-found error becomes PlatformIONotInstalledError; an error
with a truthy code and a defined stdout becomes an ordinary CommandResult;
anything else is rethrown. -/
def classifyCatch (error : JsError) (argsJoined : String) (timeout : Nat) :
    Except PioError CommandResult :=
  if error.killed = true ∧ error.signal = some "SIGTERM" then
    Except.error (PioError.timedOut argsJoined timeout)
  else if isPlatformIONotFoundError error then
    Except.error PioError.notInstalled
  else
    match error.code, error.stdout with
    | some c, some s =>
      if c.truthy then Except.ok { stdout := s, stderr := error.stderr.getD "", exitCode := c }
      else Except.error (PioError.js error)
    | _, _ => Except.error (PioError.js error)

/-- Embedding of execPioCommand (src/platformio.ts lines 24-90).  The clean
path returns { stdout, stderr, exitCode O }; every rejection goes through the
catch-block classification. -/
def execPioCommand (spawn : Spawn) (args : List String) (options : ExecOptions) :
    Except PioError CommandResult :=
  let timeout := options.timeout.getD DEFAULT_TIMEOUT
  match tryPioBinaries spawn args options.cwd timeout with
  | Except.ok (out, err) => Except.ok { stdout := out, stderr := err, exitCode := ErrCode.num 0 }
  | Except.error e => classifyCatch e (String.intercalate " " args) timeout

/-- Embedding of checkPlatformIOInstalled (src/platformio.ts lines 125-135):
runs pio --version with a 5000 ms timeout; true iff exit code 0 and stdout
contains the word PlatformIO; a PlatformIONotInstalledError becomes false;
every other error is rethrown. -/
def checkPlatformIOInstalled (spawn : Spawn) : Except PioError Bool :=
  match execPioCommand spawn ["--version"] { cwd := none, timeout := some 5000 } with
  | Except.ok result =>
    Except.ok (decide (result.exitCode = ErrCode.num 0) && strIncludes result.stdout "PlatformIO")
  | Except.error PioError.notInstalled => Except.ok false
  | Except.error e => Except.error e

/-- PlatformIOExecutor.checkInstallation (src/platformio.ts lines 174-176)
just forwards to checkPlatformIOInstalled. -/
def checkInstallation (spawn : Spawn) : Except PioError Bool :=
  checkPlatformIOInstalled spawn

/-- PlatformIOExecutor.execute (src/platformio.ts lines 166-169): prepends the
command verb to the argument list and calls execPioCommand. -/
def executorExecute (spawn : Spawn) (command : String) (args : List String)
    (options : ExecOptions) : Except PioError CommandResult :=
  execPioCommand spawn (command :: args) options

/-- Minimal JSON value, the shapes the wrapper consumes.  Numbers are modelled
as integers and string escapes are not modelled; the claims only exercise
objects, strings and syntactically invalid input. -/
inductive JsonVal where
  | null
  | bool (b : Bool)
  | num (n : Int)
  | str (s : String)
  | arr (elems : List JsonVal)
  | obj (fields : List (String × JsonVal))

/-- Whitespace recognised by the JSON grammar. -/
def isWsChar (c : Char) : Bool :=
  c == ' ' || c == '\n' || c == '\t' || c == '\r'

/-- Drops leading JSON whitespace. -/
def skipWs : List Char → List Char
  | [] => []
  | c :: rest => if isWsChar c then skipWs rest else c :: rest

/-- Reads the characters of a JSON string literal after its opening quote,
up to the closing quote (escapes unmodelled). -/
def parseStringChars : List Char → Except String (List Char × List Char)
  | [] => Except.error "Unterminated string in JSON"
  | c :: rest =>
    if c == '"' then Except.ok ([], rest)
    else
      match parseStringChars rest with
      | Except.ok (s, r) => Except.ok (c :: s, r)
      | Except.error m => Except.error m

/-- Numeric value of a digit run. -/
def digitsToNat (ds : List Char) : Nat :=
  ds.foldl (fun acc c => acc * 10 + (c.toNat - 48)) 0

mutual

/-- Fuelled recursive-descent JSON value parser, modelling JSON.parse. -/
def parseVal : Nat → List Char → Except String (JsonVal × List Char)
  | 0, _ => Except.error "JSON nesting too deep"
  | fuel + 1, cs =>
    match skipWs cs with
    | [] => Except.error "Unexpected end of JSON input"
    | c :: rest =>
      if c == '"' then
        match parseStringChars rest with
        | Except.ok (s, r) => Except.ok (JsonVal.str (String.mk s), r)
        | Except.error m => Except.error m
      else if c == 't' then
        match rest with
        | 'r' :: 'u' :: 'e' :: r => Except.ok (JsonVal.bool true, r)
        | _ => Except.error "Unexpected token in JSON"
      else if c == 'f' then
        match rest with
        | 'a' :: 'l' :: 's' :: 'e' :: r => Except.ok (JsonVal.bool false, r)
        | _ => Except.error "Unexpected token in JSON"
      else if c == 'n' then
        match rest with
        | 'u' :: 'l' :: 'l' :: r => Except.ok (JsonVal.null, r)
        | _ => Except.error "Unexpected token in JSON"
      else if c == '[' then
        match skipWs rest with
        | ']' :: r => Except.ok (JsonVal.arr [], r)
        | other =>
          match parseArrTail fuel other with
          | Except.ok (vs, r) => Except.ok (JsonVal.arr vs, r)
          | Except.error m => Except.error m
      else if c == Char.ofNat 123 then
        match skipWs rest with
        | cb :: r =>
          if cb == Char.ofNat 125 then Except.ok (JsonVal.obj [], r)
          else
            match parseObjTail fuel (cb :: r) with
            | Except.ok (fs, r2) => Except.ok (JsonVal.obj fs, r2)
            | Except.error m => Except.error m
        | [] => Except.error "Unexpected end of JSON input"
      else if c == '-' then
        match rest.span Char.isDigit with
        | ([], _) => Except.error "Unexpected token in JSON"
        | (ds, r) => Except.ok (JsonVal.num (-(digitsToNat ds : Int)), r)
      else if c.isDigit then
        match (c :: rest).span Char.isDigit with
        | (ds, r) => Except.ok (JsonVal.num (digitsToNat ds : Int), r)
      else Except.error "Unexpected token in JSON"

/-- Parses the elements of a non-empty JSON array up to the closing bracket. -/
def parseArrTail : Nat → List Char → Except String (List JsonVal × List Char)
  | 0, _ => Except.error "JSON nesting too deep"
  | fuel + 1, cs =>
    match parseVal fuel cs with
    | Except.error m => Except.error m
    | Except.ok (v, r) =>
      match skipWs r with
      | ',' :: r2 =>
        match parseArrTail fuel r2 with
        | Except.ok (vs, r3) => Except.ok (v :: vs, r3)
        | Except.error m => Except.error m
      | ']' :: r2 => Except.ok ([v], r2)
      | _ => Except.error "Expected comma or closing bracket in JSON array"

/-- Parses the fields of a non-empty JSON object up to the closing brace. -/
def parseObjTail : Nat → List Char → Except String (List (String × JsonVal) × List Char)
  | 0, _ => Except.error "JSON nesting too deep"
  | fuel + 1, cs =>
    match skipWs cs with
    | [] => Except.error "Unexpected end of JSON input"
    | c :: rest =>
      if c == '"' then
        match parseStringChars rest with
        | Except.error m => Except.error m
        | Except.ok (key, r) =>
          match skipWs r with
          | ':' :: r2 =>
            match parseVal fuel r2 with
            | Except.error m => Except.error m
            | Except.ok (v, r3) =>
              match skipWs r3 with
              | ',' :: r4 =>
                match parseObjTail fuel r4 with
                | Except.ok (fs, r5) => Except.ok ((String.mk key, v) :: fs, r5)
                | Except.error m => Except.error m
              | cb :: r4 =>
                if cb == Char.ofNat 125 then Except.ok ([(String.mk key, v)], r4)
                else Except.error "Expected comma or closing brace in JSON object"
              | [] => Except.error "Expected comma or closing brace in JSON object"
          | _ => Except.error "Expected colon in JSON object"
      else Except.error "Expected string key in JSON object"

end

/-- Model of JSON.parse: parse one value and require only whitespace after it.
The fuel bound is generous for the input length, so it is never the reason a
syntactically valid input fails. -/
def jsonParse (s : String) : Except String JsonVal :=
  match parseVal (2 * s.length + 4) s.toList with
  | Except.error m => Except.error m
  | Except.ok (v, rest) =>
    if (skipWs rest).isEmpty then Except.ok v
    else Except.error "Unexpected token after JSON value"

/-- A Zod schema is modelled as a checker from a parsed JSON value to either a
typed value or the list of field-level issues of a ZodError. -/
abbrev Schema (α : Type) := JsonVal → Except (List String) α

/-- Embedding of parsePioJsonOutput (src/platformio.ts lines 95-120): empty or
whitespace-only output is its own error; a JSON syntax error becomes
INVALID_JSON; a schema mismatch becomes PARSE_ERROR carrying the issues; both
carry the first 500 characters of the offending output. -/
def parsePioJsonOutput {α : Type} (output : String) (schema : Schema α) :
    Except PioError α :=
  if output = "" ∨ (trimStr output).length = 0 then Except.error PioError.emptyOutput
  else
    match jsonParse output with
    | Except.ok parsed =>
      match schema parsed with
      | Except.ok v => Except.ok v
      | Except.error issues => Except.error (PioError.schemaErr issues (takeStr output 500))
    | Except.error m => Except.error (PioError.invalidJson m (takeStr output 500))

/-- Ensures the structured-output flag is present exactly once
(src/platformio.ts lines 195-198). -/
def ensureJsonFlag (args : List String) : List String :=
  if args.contains "--json-output" then args else args ++ ["--json-output"]

/-- Embedding of PlatformIOExecutor.executeWithJsonOutput (src/platformio.ts
lines 188-211): appends the structured-output flag when missing, executes, on
a non-zero exit raises COMMAND_FAILED carrying stderr and the exit code, and
otherwise parses stdout against the schema. -/
def executeWithJsonOutput {α : Type} (spawn : Spawn) (command : String)
    (args : List String) (schema : Schema α) (options : ExecOptions) :
    Except PioError α :=
  match executorExecute spawn command (ensureJsonFlag args) options with
  | Except.error e => Except.error e
  | Except.ok result =>
    if result.exitCode ≠ ErrCode.num 0 then
      Except.error (PioError.commandFailed command (String.intercalate " " args)
        result.stderr result.exitCode)
    else parsePioJsonOutput result.stdout schema

/-- Modelled from the spec: a library object of the list consumed through
LibrariesArraySchema (src/types.ts is absent from the sources); the tools read
a name and a registry id. -/
structure LibraryInfo where
  name : String
  id : Nat
deriving DecidableEq

/-- Modelled from the spec: a device object port, description, hwid consumed
through DevicesArraySchema (src/types.ts is absent from the sources). -/
structure SerialDevice where
  port : String
  description : String
  hwid : String
deriving DecidableEq

/-- Character class of the board-id regex [a-zA-Z0-9_\-.] from
src/utils/validation.ts line 240, written over code points exactly as the
ranges of the regex. -/
def isBoardIdChar (c : Char) : Bool :=
  (97 ≤ c.val && c.val ≤ 122) || (65 ≤ c.val && c.val ≤ 90) ||
  (48 ≤ c.val && c.val ≤ 57) || c == '_' || c == '-' || c == '.'

/-- Embedding of validateBoardId (src/utils/validation.ts lines 229-242):
rejects the empty string, lengths outside 2..50, and any character outside
the allow-list; the regex anchors ^...+$ are the conjunction of nonemptiness,
implied by the length bound, with the per-character class test. -/
def validateBoardId (boardId : String) : Bool :=
  if boardId = "" then false
  else if boardId.length < 2 ∨ 50 < boardId.length then false
  else boardId.toList.all isBoardIdChar

/-- Character class of the version-range prefix [\^~><=] from
src/utils/validation.ts line 385. -/
def isRangeChar (c : Char) : Bool :=
  c == '^' || c == '~' || c == '>' || c == '<' || c == '='

/-- Character class of the version suffix [a-zA-Z0-9\-+.] from
src/utils/validation.ts line 385. -/
def isSuffixChar (c : Char) : Bool :=
  (97 ≤ c.val && c.val ≤ 122) || (65 ≤ c.val && c.val ≤ 90) ||
  (48 ≤ c.val && c.val ≤ 57) || c == '-' || c == '+' || c == '.'

/-- All remainders after the star [\^~><=]* consumes a prefix of the input. -/
def starRange : List Char → List (List Char)
  | [] => [[]]
  | c :: rest => (c :: rest) :: (if isRangeChar c then starRange rest else [])

/-- All remainders after the plus \d+ consumes one or more leading digits. -/
def plusDigit : List Char → List (List Char)
  | [] => []
  | c :: rest => if c.isDigit then rest :: plusDigit rest else []

/-- All remainders after one group \.\d+ is consumed. -/
def dotDigits : List Char → List (List Char)
  | [] => []
  | c :: rest => if c == '.' then plusDigit rest else []

/-- All remainders after the bounded repetition (\.\d+) zero, one or two
times. -/
def upTo2DotDigits (cs : List Char) : List (List Char) :=
  cs :: (dotDigits cs ++ (dotDigits cs).flatMap dotDigits)

/-- Backtracking match of the anchored regex
^[\^~><=]*\d+(\.\d+) zero-to-two times ([a-zA-Z0-9\-+.]*)?$ from
src/utils/validation.ts line 385: some way of splitting the input through the
successive pieces must leave a remainder consisting only of suffix-class
characters. -/
def versionRegexMatch (s : String) : Bool :=
  (starRange s.toList).any fun r1 =>
    (plusDigit r1).any fun r2 =>
      (upTo2DotDigits r2).any fun r3 => r3.all isSuffixChar

/-- Embedding of validateVersion (src/utils/validation.ts lines 379-387):
false for the empty string, otherwise the regex test conjoined with the
length bound 50. -/
def validateVersion (version : String) : Bool :=
  if version = "" then false
  else versionRegexMatch version && decide (version.length ≤ 50)

/-- Modelled from the spec, for comparison with the code: the claim's reading
of validateVersion, an optional single range prefix drawn from the six listed
operators, then one to three dot-separated numeric components, then an
optional pre-release or build suffix over the suffix character class. -/
def specVersionValid (s : String) : Bool :=
  decide (s.length ≤ 50) &&
  (["", "^", "~", ">", "<", ">=", "<="].any fun p =>
    p.toList.isPrefixOf s.toList &&
    ((plusDigit ((s.toList).drop p.toList.length)).any fun r2 =>
      (upTo2DotDigits r2).any fun r3 => r3.all isSuffixChar))

/-- Folds path segments the way the Node path module resolves an absolute
path: empty and dot segments vanish, dot-dot pops the last segment and is
dropped at the root, anything else is appended. -/
def applySegsAbs (init : List String) (segs : List String) : List String :=
  segs.foldl
    (fun acc seg =>
      if seg = "" ∨ seg = "." then acc
      else if seg = ".." then acc.dropLast
      else acc ++ [seg])
    init

/-- Model of Node path.resolve on POSIX for a single argument: an absolute
input replaces the working directory, a relative one is appended to it, and
the dot-dot and dot segments are collapsed.  The working directory is given
as its list of segments. -/
def resolvePath (cwd : List String) (p : String) : String :=
  let base := if startsSlash p then [] else cwd
  "/" ++ String.intercalate "/" (applySegsAbs base (splitSlash p))

/-- Folds segments for Node path.normalize on a relative path, where leading
dot-dot segments are preserved. -/
def applySegsRel (segs : List String) : List String :=
  segs.foldl
    (fun acc seg =>
      if seg = "" ∨ seg = "." then acc
      else if seg = ".." then
        match acc.getLast? with
        | some l => if l = ".." then acc ++ [".."] else acc.dropLast
        | none => [".."]
      else acc ++ [seg])
    []

/-- Model of Node path.normalize on POSIX: collapses dot and dot-dot
segments, keeping leading dot-dots of a relative path, and preserves a
trailing slash. -/
def normalizePath (p : String) : String :=
  if startsSlash p then
    let base := "/" ++ String.intercalate "/" (applySegsAbs [] (splitSlash p))
    if endsSlash p ∧ base ≠ "/" then base ++ "/" else base
  else
    let segs := applySegsRel (splitSlash p)
    let base := String.intercalate "/" segs
    let base := if base = "" then "." else base
    if endsSlash p ∧ base ≠ "." then base ++ "/" else base

/-- Embedding of validateProjectPath (src/utils/validation.ts lines 249-269):
trims the input, resolves it against the working directory, normalizes the
resolved form, and raises the traversal error when the normalized form
contains the two-dot substring or differs from the resolved form; otherwise
returns the resolved absolute path. -/
def validateProjectPath (cwd : List String) (projectPath : String) :
    Except String String :=
  if projectPath = "" then
    Except.error "Project path is required and must be a string"
  else
    let sanitized := trimStr projectPath
    let absolutePath := resolvePath cwd sanitized
    let normalizedPath := normalizePath absolutePath
    if strIncludes normalizedPath ".." ∨ normalizedPath ≠ absolutePath then
      Except.error "Invalid project path: path traversal detected"
    else Except.ok absolutePath

/-- Try block of listInstalledLibraries (src/tools/libraries.ts lines
105-119): validate the optional project directory, then execute pio lib list
with a 30 s timeout and the libraries schema.  A validation failure is the
plain Error object the validator throws. -/
def libListAttempt (spawn : Spawn) (schema : Schema (List LibraryInfo))
    (cwd : List String) (projectDir : Option String) :
    Except PioError (List LibraryInfo) :=
  match projectDir with
  | some pd =>
    match validateProjectPath cwd pd with
    | Except.error m =>
      Except.error (PioError.js
        { name := "Error", message := m, killed := false, signal := none,
          code := none, stdout := none, stderr := none })
    | Except.ok validated =>
      executeWithJsonOutput spawn "lib" ["list"] schema
        { cwd := some validated, timeout := some 30000 }
  | none =>
    executeWithJsonOutput spawn "lib" ["list"] schema
      { cwd := none, timeout := some 30000 }

/-- Embedding of listInstalledLibraries (src/tools/libraries.ts lines
104-134): a PlatformIOError whose lowercased message contains no libraries or
empty yields the empty list; every other failure is wrapped in a
LibraryError naming the operation. -/
def listInstalledLibraries (spawn : Spawn) (schema : Schema (List LibraryInfo))
    (cwd : List String) (projectDir : Option String) :
    Except String (List LibraryInfo) :=
  match libListAttempt spawn schema cwd projectDir with
  | Except.ok libs => Except.ok libs
  | Except.error e =>
    if e.isPio &&
        (strIncludes (toLowerStr e.message) "no libraries" ||
         strIncludes (toLowerStr e.message) "empty") then
      Except.ok []
    else
      Except.error
        ("Failed to list installed libraries" ++
          (match projectDir with
           | some pd => " for project at " ++ pd
           | none => "") ++
          ": " ++ e.errString)

/-- Embedding of listDevices (src/tools/devices.ts, lines 251-276 of the
combined tools file): runs pio device list with a 10 s timeout; a
PlatformIOError whose lowercased message contains no devices or empty yields
the empty list; every other failure is wrapped in a PlatformIOError naming
the operation. -/
def listDevices (spawn : Spawn) (schema : Schema (List SerialDevice)) :
    Except String (List SerialDevice) :=
  match executeWithJsonOutput spawn "device" ["list"] schema
      { cwd := none, timeout := some 10000 } with
  | Except.ok devices => Except.ok devices
  | Except.error e =>
    if e.isPio &&
        (strIncludes (toLowerStr e.message) "no devices" ||
         strIncludes (toLowerStr e.message) "empty") then
      Except.ok []
    else
      Except.error ("Failed to list devices: " ++ e.errString)

/-- Field lookup in a parsed JSON object, first occurrence wins. -/
def findField (fields : List (String × JsonVal)) (key : String) : Option JsonVal :=
  match fields.find? (fun kv => kv.fst == key) with
  | some kv => some kv.snd
  | none => none

/-- Typed result of the round-trip example schema: an object with a string
id. -/
structure IdObj where
  id : String
deriving DecidableEq

/-- Modelled from the spec: the round-trip example schema requiring id to be a
string, standing in for z.object with id z.string; issues name the mismatched
field the way a ZodError lists its issues. -/
def idSchema : Schema IdObj := fun v =>
  match v with
  | JsonVal.obj fields =>
    match findField fields "id" with
    | some (JsonVal.str s) => Except.ok ⟨s⟩
    | some _ => Except.error ["id: Expected string, received other"]
    | none => Except.error ["id: Required"]
  | _ => Except.error ["Expected object"]

/-- Environment stub: every binary fulfils with the given body on stdout and
empty stderr. -/
def stubOk (body : String) : Spawn := fun _ _ _ _ => SpawnResult.ok body ""

/-- Environment stub error: spawning pio reports ENOENT. -/
def enoentPio : JsError :=
  { name := "Error", message := "spawn pio ENOENT", killed := false,
    signal := none, code := some (ErrCode.str "ENOENT"),
    stdout := none, stderr := none }

/-- Environment stub error: spawning platformio reports ENOENT. -/
def enoentPlatformio : JsError :=
  { name := "Error", message := "spawn platformio ENOENT", killed := false,
    signal := none, code := some (ErrCode.str "ENOENT"),
    stdout := none, stderr := none }

/-- Environment stub: neither binary exists; both spawns reject with ENOENT. -/
def spawnNeitherBinary : Spawn := fun binary _ _ _ =>
  if binary = "pio" then SpawnResult.err enoentPio
  else SpawnResult.err enoentPlatformio

/-- Environment stub: only the platformio alias exists; it reports a version
banner. -/
def spawnAliasOnly : Spawn := fun binary _ _ _ =>
  if binary = "pio" then SpawnResult.err enoentPio
  else SpawnResult.ok "PlatformIO Core, version 6.1.16" ""

/-- Environment stub error: the child ran and exited with code 2, producing
output on both channels. -/
def exitTwoError : JsError :=
  { name := "Error", message := "Command failed: pio run", killed := false,
    signal := none, code := some (ErrCode.num 2),
    stdout := some "compile log", stderr := some "error: stuff broke" }

/-- Environment stub: every spawn rejects with the exit-code-2 error. -/
def spawnExitTwo : Spawn := fun _ _ _ _ => SpawnResult.err exitTwoError

/-- Environment stub error: the child was killed by the SIGTERM sent on
timeout. -/
def sigtermError : JsError :=
  { name := "Error", message := "Command failed: pio run", killed := true,
    signal := some "SIGTERM", code := none,
    stdout := some "", stderr := some "" }

/-- Environment stub: every spawn rejects with the SIGTERM kill error. -/
def spawnSigterm : Spawn := fun _ _ _ _ => SpawnResult.err sigtermError

/-- Environment stub error: the child exited with code 1 and empty stdout,
the shape executeWithJsonOutput turns into COMMAND_FAILED. -/
def exitOneError : JsError :=
  { name := "Error", message := "Command failed: pio lib list --json-output",
    killed := false, signal := none, code := some (ErrCode.num 1),
    stdout := some "", stderr := some "some failure" }

/-- Environment stub: every spawn rejects with the exit-code-1 error. -/
def spawnExitOne : Spawn := fun _ _ _ _ => SpawnResult.err exitOneError

/-- Schema stub for the library list used when exercising error paths: the
shape never matters because the executor fails first. -/
def libSchemaStub : Schema (List LibraryInfo) := fun _ => Except.error ["unreached"]

/-- Schema stub for the device list used when exercising error paths. -/
def devSchemaStub : Schema (List SerialDevice) := fun _ => Except.error ["unreached"]

/-- Environment instance: the pio child ran and exited with code 1, its
stdout captured, but its stderr mentions a missing board; Node builds the
error message as Command failed: the command, a newline, then stderr, so the
message text matches the not-found heuristic of errors.ts. -/
def notFoundExitError : JsError :=
  { name := "Error"
    message := "Command failed: pio boards\nerror: board not found"
    killed := false
    signal := none
    code := some (ErrCode.num 1)
    stdout := some "partial output"
    stderr := some "error: board not found" }

/-- Environment instance: the same non-zero exit observed on the platformio
alias, with the alias name in the Command failed prefix. -/
def notFoundExitErrorAlias : JsError :=
  { name := "Error"
    message := "Command failed: platformio boards\nerror: board not found"
    killed := false
    signal := none
    code := some (ErrCode.num 1)
    stdout := some "partial output"
    stderr := some "error: board not found" }

/-- Environment stub: both binaries exist and both runs exit 1 with a
board-not-found stderr embedded in the error message. -/
def spawnNotFoundExit : Spawn := fun binary _ _ _ =>
  if binary = "pio" then SpawnResult.err notFoundExitError
  else SpawnResult.err notFoundExitErrorAlias

/-- Environment instance: the pio child was killed by the SIGTERM enforcing
the timeout, while its stderr - embedded by Node in the error message -
happens to contain the words not found. -/
def sigtermNotFoundError : JsError :=
  { name := "Error"
    message := "Command failed: pio run\nupload port not found"
    killed := true
    signal := some "SIGTERM"
    code := none
    stdout := some ""
    stderr := some "upload port not found" }

/-- Environment stub: the pio run is killed on timeout with a not-found
message, and the platformio alias - which the code then tries - succeeds. -/
def spawnSigtermNotFound : Spawn := fun binary _ _ _ =>
  if binary = "pio" then SpawnResult.err sigtermNotFoundError
  else SpawnResult.ok "rerun output" ""

/-! Theorems.  Each claim of the specification audit is settled by exactly one
theorem below; helper lemmas carry no claim by themselves. -/

/-- The board-id character class written by the source regex coincides with
ASCII alphanumerics plus underscore, hyphen and dot. -/
theorem isBoardIdChar_iff (c : Char) :
    isBoardIdChar c = (c.isAlphanum || c == '_' || c == '-' || c == '.') := by
  have hb : ∀ a b : Bool, (a = b) ↔ ((a = true) ↔ (b = true)) := by decide
  rw [hb]
  simp only [isBoardIdChar, Char.isAlphanum, Char.isAlpha, Char.isDigit,
    Char.isUpper, Char.isLower, Bool.or_eq_true, Bool.and_eq_true,
    decide_eq_true_eq, ge_iff_le, beq_iff_eq]
  tauto

/-- C7: validateBoardId accepts exactly the strings whose length lies between
2 and 50 and whose characters are ASCII letters, digits, underscore, hyphen
or dot; every other string yields false (the function is total, so no
exception is possible). -/
theorem validateBoardId_spec (s : String) :
    validateBoardId s = true ↔
      2 ≤ s.length ∧ s.length ≤ 50 ∧
        ∀ c ∈ s.toList, (c.isAlphanum || c == '_' || c == '-' || c == '.') = true := by
  unfold validateBoardId
  split_ifs with h0 h1
  · constructor
    · intro h; cases h
    · rintro ⟨h2, -, -⟩
      subst h0
      rw [String.length_empty] at h2
      omega
  · constructor
    · intro h; cases h
    · rintro ⟨h2, h3, -⟩
      omega
  · rw [List.all_eq_true]
    constructor
    · intro h
      refine ⟨by omega, by omega, fun c hc => ?_⟩
      rw [← isBoardIdChar_iff]
      exact h c hc
    · rintro ⟨-, -, hall⟩ c hc
      rw [isBoardIdChar_iff]
      exact hall c hc

/-- Witness for C7 at a concrete board id. -/
theorem validateBoardId_spec_witness : validateBoardId "esp32dev" = true :=
  (validateBoardId_spec "esp32dev").mpr (by decide)

/-- Every remainder produced by the range-prefix star comes from consuming a
run of range characters. -/
theorem starRange_sound {cs r : List Char} (h : r ∈ starRange cs) :
    ∃ a, cs = a ++ r ∧ ∀ x ∈ a, isRangeChar x = true := by
  induction cs generalizing r with
  | nil =>
    rw [starRange] at h
    rcases List.mem_cons.mp h with h | h
    · exact ⟨[], by simp [h], by simp⟩
    · cases h
  | cons c rest ih =>
    rw [starRange] at h
    rcases List.mem_cons.mp h with h | h
    · exact ⟨[], by simp [h], by simp⟩
    · by_cases hc : isRangeChar c
      · rw [if_pos hc] at h
        obtain ⟨a, hrest, ha⟩ := ih h
        refine ⟨c :: a, by simp [hrest], ?_⟩
        intro x hx
        rcases List.mem_cons.mp hx with hx | hx
        · exact hx ▸ hc
        · exact ha x hx
      · rw [if_neg hc] at h
        cases h

/-- Consuming any run of range characters is one of the star's options. -/
theorem starRange_complete {a : List Char} (r : List Char)
    (ha : ∀ x ∈ a, isRangeChar x = true) : r ∈ starRange (a ++ r) := by
  induction a with
  | nil =>
    rw [List.nil_append]
    cases r with
    | nil => rw [starRange]; exact List.mem_cons_self _ _
    | cons c rest => rw [starRange]; exact List.mem_cons_self _ _
  | cons c a ih =>
    rw [List.cons_append, starRange]
    refine List.mem_cons_of_mem _ ?_
    rw [if_pos (ha c (List.mem_cons_self c a))]
    exact ih fun x hx => ha x (List.mem_cons_of_mem c hx)

/-- Every remainder produced by the digit plus comes from consuming one or
more leading digits. -/
theorem plusDigit_sound {cs r : List Char} (h : r ∈ plusDigit cs) :
    ∃ d m, cs = d :: (m ++ r) ∧ d.isDigit = true ∧ ∀ x ∈ m, x.isDigit = true := by
  induction cs generalizing r with
  | nil => cases h
  | cons c rest ih =>
    rw [plusDigit] at h
    by_cases hc : c.isDigit
    · rw [if_pos hc] at h
      rcases List.mem_cons.mp h with h | h
      · exact ⟨c, [], by simp [h], hc, by simp⟩
      · obtain ⟨d, m, hrest, hd, hm⟩ := ih h
        refine ⟨c, d :: m, by simp [hrest], hc, ?_⟩
        intro x hx
        rcases List.mem_cons.mp hx with hx | hx
        · exact hx ▸ hd
        · exact hm x hx
    · rw [if_neg hc] at h
      cases h

/-- Digits belong to the suffix character class. -/
theorem isSuffixChar_of_isDigit {c : Char} (h : c.isDigit = true) :
    isSuffixChar c = true := by
  simp only [Char.isDigit, Bool.and_eq_true, decide_eq_true_eq, ge_iff_le] at h
  simp only [isSuffixChar, Bool.or_eq_true, Bool.and_eq_true, decide_eq_true_eq,
    ge_iff_le, beq_iff_eq]
  tauto

/-- Every remainder of one dot-digits group comes from consuming a dot and
digits, all of which lie in the suffix class. -/
theorem dotDigits_sound {cs r : List Char} (h : r ∈ dotDigits cs) :
    ∃ m, cs = m ++ r ∧ ∀ x ∈ m, isSuffixChar x = true := by
  cases cs with
  | nil => cases h
  | cons c rest =>
    rw [dotDigits] at h
    by_cases hc : c == '.'
    · rw [if_pos hc] at h
      obtain ⟨d, m, hrest, hd, hm⟩ := plusDigit_sound h
      refine ⟨c :: d :: m, by simp [hrest], ?_⟩
      intro x hx
      rcases List.mem_cons.mp hx with hx | hx
      · subst hx
        rw [beq_iff_eq] at hc
        subst hc
        decide
      · rcases List.mem_cons.mp hx with hx | hx
        · exact hx ▸ isSuffixChar_of_isDigit hd
        · exact isSuffixChar_of_isDigit (hm x hx)
    · rw [if_neg hc] at h
      cases h

/-- Every remainder of the bounded repetition comes from consuming
suffix-class characters only. -/
theorem upTo2DotDigits_sound {cs r : List Char} (h : r ∈ upTo2DotDigits cs) :
    ∃ m, cs = m ++ r ∧ ∀ x ∈ m, isSuffixChar x = true := by
  rw [upTo2DotDigits] at h
  rcases List.mem_cons.mp h with h | h
  · exact ⟨[], h.symm ▸ rfl, by simp⟩
  · rcases List.mem_append.mp h with h | h
    · exact dotDigits_sound h
    · obtain ⟨mid, hmid, hr⟩ := List.mem_flatMap.mp h
      obtain ⟨m1, hcs, hm1⟩ := dotDigits_sound hmid
      obtain ⟨m2, hmid2, hm2⟩ := dotDigits_sound hr
      refine ⟨m1 ++ m2, by rw [hcs, hmid2, List.append_assoc], ?_⟩
      intro x hx
      rcases List.mem_append.mp hx with hx | hx
      · exact hm1 x hx
      · exact hm2 x hx

/-- C8 amended: validateVersion accepts exactly the strings of length at most
50 that consist of any run (possibly several characters) drawn from the range
operators caret, tilde, greater, less and equals, followed by at least one
digit, followed by any run of suffix-class characters (letters, digits,
hyphen, plus, dot) - the regex places no single-prefix restriction and its
numeric-components group is absorbed by the permissive suffix class. -/
theorem validateVersion_amended (s : String) :
    validateVersion s = true ↔
      s.length ≤ 50 ∧
        ∃ a d c, s.toList = a ++ d :: c ∧ (∀ x ∈ a, isRangeChar x = true) ∧
          d.isDigit = true ∧ ∀ x ∈ c, isSuffixChar x = true := by
  unfold validateVersion
  split_ifs with h0
  · constructor
    · intro h; cases h
    · rintro ⟨-, a, d, c, habs, -⟩
      subst h0
      rw [show ("" : String).toList = [] from rfl] at habs
      exact absurd habs.symm (List.append_ne_nil_of_right_ne_nil a (by simp))
  · rw [Bool.and_eq_true, decide_eq_true_eq]
    constructor
    · rintro ⟨hm, hlen⟩
      refine ⟨hlen, ?_⟩
      rw [versionRegexMatch, List.any_eq_true] at hm
      obtain ⟨r1, hr1, hm⟩ := hm
      rw [List.any_eq_true] at hm
      obtain ⟨r2, hr2, hm⟩ := hm
      rw [List.any_eq_true] at hm
      obtain ⟨r3, hr3, hall⟩ := hm
      rw [List.all_eq_true] at hall
      obtain ⟨a, hsa, ha⟩ := starRange_sound hr1
      obtain ⟨d, m1, hr1eq, hd, hm1⟩ := plusDigit_sound hr2
      obtain ⟨m2, hr2eq, hm2⟩ := upTo2DotDigits_sound hr3
      refine ⟨a, d, m1 ++ (m2 ++ r3), ?_, ha, hd, ?_⟩
      · rw [hsa, hr1eq, hr2eq]
      · intro x hx
        rcases List.mem_append.mp hx with hx | hx
        · exact isSuffixChar_of_isDigit (hm1 x hx)
        · rcases List.mem_append.mp hx with hx | hx
          · exact hm2 x hx
          · exact hall x hx
    · rintro ⟨hlen, a, d, c, hsa, ha, hd, hc⟩
      refine ⟨?_, hlen⟩
      rw [versionRegexMatch, List.any_eq_true]
      refine ⟨d :: c, by rw [hsa]; exact starRange_complete (d :: c) ha, ?_⟩
      rw [List.any_eq_true]
      refine ⟨c, by rw [plusDigit, if_pos hd]; exact List.mem_cons_self _ _, ?_⟩
      rw [List.any_eq_true]
      refine ⟨c, by rw [upTo2DotDigits]; exact List.mem_cons_self _ _, ?_⟩
      rw [List.all_eq_true]
      exact hc

/-- C8 counterexample: the caret-caret-one string is accepted by the code
although it does not start with a single range prefix drawn from the six
listed operators, refuting the claim as stated. -/
theorem validateVersion_counterexample :
    validateVersion "^^1" = true ∧ specVersionValid "^^1" = false := by
  exact ⟨by rfl, by rfl⟩

/-- Witness for the amended C8 statement at a concrete version range. -/
theorem validateVersion_amended_witness : validateVersion ">=1.2.0-rc1" = true :=
  (validateVersion_amended ">=1.2.0-rc1").mpr
    ⟨by decide, ['>', '='], '1', ".2.0-rc1".toList, by decide, by decide, by decide⟩

/-- C1 evaluation at the failing input: for a process working in the home-user
directory, the traversal input a slash dot-dot slash dot-dot slash etc is
resolved, its dot-dot segments silently collapsed by path.resolve before the
check runs, and the collapsed absolute path is returned instead of an error;
the plain input a slash b returns the resolved path as the spec expects; and
a path whose file name merely contains two adjacent dots is wrongly rejected,
showing the check fires only on the already-resolved text. -/
theorem validateProjectPath_collapses_traversal :
    validateProjectPath ["home", "user"] "a/../../etc" = Except.ok "/home/etc" ∧
    validateProjectPath ["home", "user"] "a/b" = Except.ok "/home/user/a/b" ∧
    validateProjectPath [] "/tmp/a..b" =
      Except.error "Invalid project path: path traversal detected" :=
  ⟨rfl, rfl, rfl⟩

/-- Timeout actually configured for a call: the caller's value or the
5-minute default (src/platformio.ts line 32). -/
def effTimeout (options : ExecOptions) : Nat :=
  options.timeout.getD DEFAULT_TIMEOUT

/-- Result classification of execPioCommand once the inner try has settled,
restated for proofs. -/
theorem execPioCommand_eq (spawn : Spawn) (args : List String) (options : ExecOptions) :
    execPioCommand spawn args options =
      match tryPioBinaries spawn args options.cwd (effTimeout options) with
      | Except.ok (out, err) =>
        Except.ok { stdout := out, stderr := err, exitCode := ErrCode.num 0 }
      | Except.error e =>
        classifyCatch e (String.intercalate " " args) (effTimeout options) := rfl

/-- C2: whenever spawning pio rejects with an error the not-found heuristic
recognises, and spawning platformio with the same arguments, working
directory and timeout also rejects with such an error, execPioCommand raises
exactly PlatformIONotInstalledError; and when only the pio binary is missing,
the platformio alias is retried with the same argument vector and its clean
result is returned. -/
theorem execPioCommand_not_installed (spawn : Spawn) (args : List String)
    (options : ExecOptions) (e1 : JsError)
    (h1 : spawn "pio" args options.cwd (effTimeout options) = SpawnResult.err e1)
    (hnf1 : isPlatformIONotFoundError e1 = true) :
    (∀ e2, spawn "platformio" args options.cwd (effTimeout options) = SpawnResult.err e2 →
      isPlatformIONotFoundError e2 = true →
      execPioCommand spawn args options = Except.error PioError.notInstalled) ∧
    (∀ out err, spawn "platformio" args options.cwd (effTimeout options) = SpawnResult.ok out err →
      execPioCommand spawn args options =
        Except.ok { stdout := out, stderr := err, exitCode := ErrCode.num 0 }) := by
  constructor
  · intro e2 h2 hnf2
    rw [execPioCommand_eq]
    unfold tryPioBinaries
    simp only [h1, hnf1, h2, hnf2, if_true]
    rfl
  · intro out err h2
    rw [execPioCommand_eq]
    unfold tryPioBinaries
    simp only [h1, hnf1, h2, if_true]

/-- Witness for C2: with both binaries rejecting with ENOENT, the result is
the distinguished tool-not-installed error. -/
theorem execPioCommand_not_installed_witness :
    execPioCommand spawnNeitherBinary ["--version"] {} = Except.error PioError.notInstalled :=
  (execPioCommand_not_installed spawnNeitherBinary ["--version"] {} enoentPio rfl (by rfl)).1
    enoentPlatformio rfl (by rfl)

/-- C4 amended: when the pio child ran and exited with a non-zero numeric
code, with its stdout captured on the error object, provided the error is
neither a SIGTERM timeout kill nor one the message-based not-found heuristic
recognises, execPioCommand returns the ordinary record carrying that stdout,
stderr and the actual exit code rather than raising; the same holds when the
failing run happened on the platformio alias after pio was reported missing.
The heuristic proviso is forced: see the counterexample below. -/
theorem execPioCommand_nonzero_exit (spawn : Spawn) (args : List String)
    (options : ExecOptions) (e : JsError) (n : Int) (s t : String)
    (hkill : e.killed = false)
    (hnf : isPlatformIONotFoundError e = false)
    (hcode : e.code = some (ErrCode.num n)) (hn : n ≠ 0)
    (hout : e.stdout = some s) (herr : e.stderr = some t) :
    (spawn "pio" args options.cwd (effTimeout options) = SpawnResult.err e →
      execPioCommand spawn args options =
        Except.ok { stdout := s, stderr := t, exitCode := ErrCode.num n }) ∧
    (∀ e1, spawn "pio" args options.cwd (effTimeout options) = SpawnResult.err e1 →
      isPlatformIONotFoundError e1 = true →
      spawn "platformio" args options.cwd (effTimeout options) = SpawnResult.err e →
      execPioCommand spawn args options =
        Except.ok { stdout := s, stderr := t, exitCode := ErrCode.num n }) := by
  have htr : ErrCode.truthy (ErrCode.num n) = true := by
    rw [ErrCode.truthy, decide_eq_true_eq]
    exact hn
  have hclass : classifyCatch e (String.intercalate " " args) (effTimeout options) =
      Except.ok { stdout := s, stderr := t, exitCode := ErrCode.num n } := by
    unfold classifyCatch
    simp only [hkill, hnf, hcode, hout, herr, htr, Bool.false_eq_true, false_and, if_false,
      if_true, ite_false, ite_true, Option.getD_some]
  constructor
  · intro h1
    rw [execPioCommand_eq]
    unfold tryPioBinaries
    simp only [h1, hnf, Bool.false_eq_true, if_false, ite_false]
    exact hclass
  · intro e1 h1 hnf1 h2
    rw [execPioCommand_eq]
    unfold tryPioBinaries
    simp only [h1, hnf1, h2, hnf, Bool.false_eq_true, if_false, if_true, ite_false, ite_true]
    exact hclass

/-- Witness for C4: a child that exits with code 2 after printing a compile
log yields the record with exit code 2. -/
theorem execPioCommand_nonzero_exit_witness :
    execPioCommand spawnExitTwo ["run"] {} =
      Except.ok { stdout := "compile log", stderr := "error: stuff broke",
                  exitCode := ErrCode.num 2 } :=
  (execPioCommand_nonzero_exit spawnExitTwo ["run"] {} exitTwoError 2
    "compile log" "error: stuff broke" rfl (by rfl) rfl (by decide) rfl rfl).1 rfl

/-- C5 amended: when the child is killed by the SIGTERM that enforces the
timeout, provided the error is not one the message-based not-found heuristic
recognises, execPioCommand raises CommandTimeoutError carrying the
space-joined command string and exactly the timeout configured for the call;
that timeout is the caller's value when supplied, and the 300000 millisecond
default when omitted.  The same classification applies when the kill happened
on the platformio alias retry.  The heuristic proviso is forced: see the
counterexample below. -/
theorem execPioCommand_timeout (spawn : Spawn) (args : List String)
    (options : ExecOptions) (e : JsError)
    (hkill : e.killed = true) (hsig : e.signal = some "SIGTERM")
    (hnf : isPlatformIONotFoundError e = false) :
    (spawn "pio" args options.cwd (effTimeout options) = SpawnResult.err e →
      execPioCommand spawn args options =
        Except.error (PioError.timedOut (String.intercalate " " args) (effTimeout options))) ∧
    (∀ e1, spawn "pio" args options.cwd (effTimeout options) = SpawnResult.err e1 →
      isPlatformIONotFoundError e1 = true →
      spawn "platformio" args options.cwd (effTimeout options) = SpawnResult.err e →
      execPioCommand spawn args options =
        Except.error (PioError.timedOut (String.intercalate " " args) (effTimeout options))) ∧
    (∀ ms, options.timeout = some ms → effTimeout options = ms) ∧
    (options.timeout = none → effTimeout options = 300000) := by
  have hclass : classifyCatch e (String.intercalate " " args) (effTimeout options) =
      Except.error (PioError.timedOut (String.intercalate " " args) (effTimeout options)) := by
    unfold classifyCatch
    rw [if_pos ⟨hkill, hsig⟩]
  refine ⟨?_, ?_, ?_, ?_⟩
  · intro h1
    rw [execPioCommand_eq]
    unfold tryPioBinaries
    simp only [h1, hnf, Bool.false_eq_true, if_false, ite_false]
    exact hclass
  · intro e1 h1 hnf1 h2
    rw [execPioCommand_eq]
    unfold tryPioBinaries
    simp only [h1, hnf1, h2, hnf, Bool.false_eq_true, if_false, if_true, ite_false, ite_true]
    exact hclass
  · intro ms hms
    rw [effTimeout, hms]
    rfl
  · intro hms
    rw [effTimeout, hms]
    rfl

/-- Witness for C5: a SIGTERM-killed child with no caller-supplied timeout
yields the timeout error carrying the 300000 millisecond default. -/
theorem execPioCommand_timeout_witness :
    execPioCommand spawnSigterm ["run"] {} =
      Except.error (PioError.timedOut "run" 300000) :=
  (execPioCommand_timeout spawnSigterm ["run"] {} sigtermError rfl rfl (by rfl)).1 rfl

/-- C6: whenever the underlying execute call returns a record whose exit code
differs from zero, executeWithJsonOutput raises the COMMAND_FAILED error
carrying that record's stderr and exit code; the conclusion does not depend
on the record's stdout, so no JSON parsing of the output takes place. -/
theorem executeWithJsonOutput_command_failed {α : Type} (spawn : Spawn)
    (command : String) (args : List String) (schema : Schema α)
    (options : ExecOptions) (r : CommandResult)
    (hexec : executorExecute spawn command (ensureJsonFlag args) options = Except.ok r)
    (hexit : r.exitCode ≠ ErrCode.num 0) :
    executeWithJsonOutput spawn command args schema options =
      Except.error (PioError.commandFailed command (String.intercalate " " args)
        r.stderr r.exitCode) := by
  unfold executeWithJsonOutput
  simp only [hexec]
  rw [if_pos hexit]

/-- Witness for C6: a child exiting 1 with stderr text yields COMMAND_FAILED
carrying that stderr and exit code 1. -/
theorem executeWithJsonOutput_command_failed_witness :
    executeWithJsonOutput spawnExitOne "lib" ["list"] libSchemaStub
        { cwd := none, timeout := some 30000 } =
      Except.error (PioError.commandFailed "lib" "list" "some failure" (ErrCode.num 1)) :=
  executeWithJsonOutput_command_failed spawnExitOne "lib" ["list"] libSchemaStub
    { cwd := none, timeout := some 30000 }
    { stdout := "", stderr := "some failure", exitCode := ErrCode.num 1 } rfl (by decide)

/-- C3: on a zero-exit invocation, executeWithJsonOutput reduces to
parsePioJsonOutput on the captured stdout, and that parse is the stated case
split: whitespace-only output raises the distinct empty-output error, isolated
from the JSON path; output the JSON grammar rejects raises INVALID_JSON with
the parser message and a 500-character sample; output that parses but fails
the schema raises PARSE_ERROR carrying the field-level issues; and output that
parses and conforms returns the schema-typed value. -/
theorem executeWithJsonOutput_parse_cases {α : Type} (spawn : Spawn)
    (command : String) (args : List String) (schema : Schema α)
    (options : ExecOptions) (s t : String)
    (hexec : executorExecute spawn command (ensureJsonFlag args) options =
      Except.ok { stdout := s, stderr := t, exitCode := ErrCode.num 0 }) :
    (executeWithJsonOutput spawn command args schema options = parsePioJsonOutput s schema) ∧
    ((trimStr s).length = 0 →
      executeWithJsonOutput spawn command args schema options =
        Except.error PioError.emptyOutput) ∧
    (∀ m, (trimStr s).length ≠ 0 → jsonParse s = Except.error m →
      executeWithJsonOutput spawn command args schema options =
        Except.error (PioError.invalidJson m (takeStr s 500))) ∧
    (∀ v issues, (trimStr s).length ≠ 0 → jsonParse s = Except.ok v →
      schema v = Except.error issues →
      executeWithJsonOutput spawn command args schema options =
        Except.error (PioError.schemaErr issues (takeStr s 500))) ∧
    (∀ v a, (trimStr s).length ≠ 0 → jsonParse s = Except.ok v → schema v = Except.ok a →
      executeWithJsonOutput spawn command args schema options = Except.ok a) := by
  have hbase : executeWithJsonOutput spawn command args schema options =
      parsePioJsonOutput s schema := by
    unfold executeWithJsonOutput
    simp only [hexec]
    rw [if_neg (fun h => h rfl)]
  have hnonempty : ∀ h0 : (trimStr s).length ≠ 0, ¬(s = "" ∨ (trimStr s).length = 0) := by
    intro h0 h
    rcases h with h | h
    · subst h
      exact h0 (by decide)
    · exact h0 h
  refine ⟨hbase, ?_, ?_, ?_, ?_⟩
  · intro h0
    rw [hbase]
    unfold parsePioJsonOutput
    rw [if_pos (Or.inr h0)]
  · intro m hne hp
    rw [hbase]
    unfold parsePioJsonOutput
    rw [if_neg (hnonempty hne)]
    simp only [hp]
  · intro v issues hne hp hs
    rw [hbase]
    unfold parsePioJsonOutput
    rw [if_neg (hnonempty hne)]
    simp only [hp, hs]
  · intro v a hne hp hs
    rw [hbase]
    unfold parsePioJsonOutput
    rw [if_neg (hnonempty hne)]
    simp only [hp, hs]

/-- Witness for C3: the round-trip examples of the spec, on stubbed processes
that exit 0 with the given body. -/
theorem executeWithJsonOutput_parse_cases_witness :
    executeWithJsonOutput (stubOk "\x7b\"id\":\"x\"\x7d") "lib" ["list"] idSchema {} =
      Except.ok { id := "x" } ∧
    executeWithJsonOutput (stubOk "not json") "lib" ["list"] idSchema {} =
      Except.error (PioError.invalidJson "Unexpected token in JSON" "not json") ∧
    executeWithJsonOutput (stubOk "\x7b\x7d") "lib" ["list"] idSchema {} =
      Except.error (PioError.schemaErr ["id: Required"] "\x7b\x7d") ∧
    executeWithJsonOutput (stubOk " ") "lib" ["list"] idSchema {} =
      Except.error PioError.emptyOutput :=
  ⟨(executeWithJsonOutput_parse_cases (stubOk "\x7b\"id\":\"x\"\x7d") "lib" ["list"]
      idSchema {} "\x7b\"id\":\"x\"\x7d" "" (by rfl)).2.2.2.2
      (JsonVal.obj [("id", JsonVal.str "x")]) { id := "x" } (by decide) (by rfl) (by rfl),
   (executeWithJsonOutput_parse_cases (stubOk "not json") "lib" ["list"]
      idSchema {} "not json" "" (by rfl)).2.2.1
      "Unexpected token in JSON" (by decide) (by rfl),
   (executeWithJsonOutput_parse_cases (stubOk "\x7b\x7d") "lib" ["list"]
      idSchema {} "\x7b\x7d" "" (by rfl)).2.2.2.1
      (JsonVal.obj []) ["id: Required"] (by decide) (by rfl) (by rfl),
   (executeWithJsonOutput_parse_cases (stubOk " ") "lib" ["list"]
      idSchema {} " " "" (by rfl)).2.1 (by decide)⟩

/-- C10: checkInstallation never lets the tool-not-installed error escape;
when both binaries are reported missing it returns false, and it returns true
exactly when the version invocation produced a zero exit code and a stdout
containing the word PlatformIO - in particular a zero-exit output without
that word yields false. -/
theorem checkInstallation_spec (spawn : Spawn) :
    (checkInstallation spawn ≠ Except.error PioError.notInstalled) ∧
    (∀ e1 e2, spawn "pio" ["--version"] none 5000 = SpawnResult.err e1 →
      isPlatformIONotFoundError e1 = true →
      spawn "platformio" ["--version"] none 5000 = SpawnResult.err e2 →
      isPlatformIONotFoundError e2 = true →
      checkInstallation spawn = Except.ok false) ∧
    (checkInstallation spawn = Except.ok true ↔
      ∃ r, execPioCommand spawn ["--version"] { cwd := none, timeout := some 5000 } =
          Except.ok r ∧ r.exitCode = ErrCode.num 0 ∧ strIncludes r.stdout "PlatformIO" = true) := by
  refine ⟨?_, ?_, ?_⟩
  · unfold checkInstallation checkPlatformIOInstalled
    rcases hE : execPioCommand spawn ["--version"] { cwd := none, timeout := some 5000 }
      with e | r
    · cases e <;> simp
    · simp
  · intro e1 e2 h1 hnf1 h2 hnf2
    have hE : execPioCommand spawn ["--version"] { cwd := none, timeout := some 5000 } =
        Except.error PioError.notInstalled := by
      rw [execPioCommand_eq]
      unfold tryPioBinaries
      have hcwd : ({ cwd := none, timeout := some 5000 } : ExecOptions).cwd = none := rfl
      have ht : effTimeout { cwd := none, timeout := some 5000 } = 5000 := rfl
      rw [hcwd, ht]
      simp only [h1, hnf1, h2, hnf2, if_true]
      rfl
    unfold checkInstallation checkPlatformIOInstalled
    rw [hE]
  · unfold checkInstallation checkPlatformIOInstalled
    rcases hE : execPioCommand spawn ["--version"] { cwd := none, timeout := some 5000 }
      with e | r
    · cases e <;> simp
    · constructor
      · intro h
        have hb := Except.ok.inj h
        rw [Bool.and_eq_true, decide_eq_true_eq] at hb
        exact ⟨r, rfl, hb.1, hb.2⟩
      · rintro ⟨r2, hr2, hx, hs⟩
        cases Except.ok.inj hr2
        simp [hx, hs]

/-- Witness for C10: with both binaries missing, checkInstallation reports
false rather than raising. -/
theorem checkInstallation_spec_witness :
    checkInstallation spawnNeitherBinary = Except.ok false :=
  (checkInstallation_spec spawnNeitherBinary).2.1 enoentPio enoentPlatformio
    rfl (by rfl) rfl (by rfl)

/-- C9: for both list tools, an error from the underlying executor is turned
into the empty list exactly when it is an instance of PlatformIOError whose
lowercased message contains the operation's magic substring (no libraries or
empty for libraries, no devices or empty for devices); every other error is
re-raised wrapped in the domain error naming the operation. -/
theorem list_tools_empty_heuristic (spawn : Spawn) (fL : Schema (List LibraryInfo))
    (fD : Schema (List SerialDevice)) (cwd : List String) (projectDir : Option String) :
    (∀ e, libListAttempt spawn fL cwd projectDir = Except.error e →
      (listInstalledLibraries spawn fL cwd projectDir = Except.ok [] ↔
        (e.isPio = true ∧ (strIncludes (toLowerStr e.message) "no libraries" = true ∨
          strIncludes (toLowerStr e.message) "empty" = true)))) ∧
    (∀ e, libListAttempt spawn fL cwd projectDir = Except.error e →
      ¬(e.isPio = true ∧ (strIncludes (toLowerStr e.message) "no libraries" = true ∨
          strIncludes (toLowerStr e.message) "empty" = true)) →
      listInstalledLibraries spawn fL cwd projectDir =
        Except.error ("Failed to list installed libraries" ++
          (match projectDir with
           | some pd => " for project at " ++ pd
           | none => "") ++ ": " ++ e.errString)) ∧
    (∀ e, executeWithJsonOutput spawn "device" ["list"] fD
        { cwd := none, timeout := some 10000 } = Except.error e →
      (listDevices spawn fD = Except.ok [] ↔
        (e.isPio = true ∧ (strIncludes (toLowerStr e.message) "no devices" = true ∨
          strIncludes (toLowerStr e.message) "empty" = true)))) ∧
    (∀ e, executeWithJsonOutput spawn "device" ["list"] fD
        { cwd := none, timeout := some 10000 } = Except.error e →
      ¬(e.isPio = true ∧ (strIncludes (toLowerStr e.message) "no devices" = true ∨
          strIncludes (toLowerStr e.message) "empty" = true)) →
      listDevices spawn fD = Except.error ("Failed to list devices: " ++ e.errString)) := by
  refine ⟨?_, ?_, ?_, ?_⟩
  · intro e hatt
    unfold listInstalledLibraries
    simp only [hatt]
    by_cases hc : (e.isPio && (strIncludes (toLowerStr e.message) "no libraries" ||
        strIncludes (toLowerStr e.message) "empty")) = true
    · rw [if_pos hc]
      rw [Bool.and_eq_true, Bool.or_eq_true] at hc
      exact iff_of_true rfl hc
    · rw [if_neg hc]
      rw [Bool.and_eq_true, Bool.or_eq_true] at hc
      exact iff_of_false (by simp) hc
  · intro e hatt hnot
    unfold listInstalledLibraries
    simp only [hatt]
    rw [if_neg (by rw [Bool.and_eq_true, Bool.or_eq_true]; exact hnot)]
  · intro e hatt
    unfold listDevices
    simp only [hatt]
    by_cases hc : (e.isPio && (strIncludes (toLowerStr e.message) "no devices" ||
        strIncludes (toLowerStr e.message) "empty")) = true
    · rw [if_pos hc]
      rw [Bool.and_eq_true, Bool.or_eq_true] at hc
      exact iff_of_true rfl hc
    · rw [if_neg hc]
      rw [Bool.and_eq_true, Bool.or_eq_true] at hc
      exact iff_of_false (by simp) hc
  · intro e hatt hnot
    unfold listDevices
    simp only [hatt]
    rw [if_neg (by rw [Bool.and_eq_true, Bool.or_eq_true]; exact hnot)]

/-- Witness for C9: a tool-not-installed failure, whose message contains
neither magic substring, is wrapped in the LibraryError message rather than
becoming the empty list. -/
theorem list_tools_empty_heuristic_witness :
    listInstalledLibraries spawnNeitherBinary libSchemaStub [] none =
      Except.error ("Failed to list installed libraries: PlatformIONotInstalledError: PlatformIO CLI is not installed or not found in PATH") :=
  (list_tools_empty_heuristic spawnNeitherBinary libSchemaStub devSchemaStub [] none).2.1
    PioError.notInstalled (by rfl) (by decide)

/-- C4 counterexample: a child that exits with code 1 having produced stdout,
whose stderr (embedded by Node in the error message) contains the words not
found, is inside the original claim's scope, yet execPioCommand raises
PlatformIONotInstalledError instead of returning the record with exit code 1:
the message heuristic fires first, the alias is re-run, fails the same way,
and the not-installed error is thrown. -/
theorem execPioCommand_nonzero_exit_counterexample :
    notFoundExitError.killed = false ∧
    notFoundExitError.code = some (ErrCode.num 1) ∧
    notFoundExitError.stdout = some "partial output" ∧
    notFoundExitError.stderr = some "error: board not found" ∧
    execPioCommand spawnNotFoundExit ["boards"] {} = Except.error PioError.notInstalled ∧
    execPioCommand spawnNotFoundExit ["boards"] {} ≠
      Except.ok { stdout := "partial output", stderr := "error: board not found",
                  exitCode := ErrCode.num 1 } := by
  have he : execPioCommand spawnNotFoundExit ["boards"] {} =
      Except.error PioError.notInstalled := by rfl
  refine ⟨rfl, rfl, rfl, rfl, he, ?_⟩
  rw [he]
  exact fun h => Except.noConfusion h

/-- C5 counterexample: a child killed by the timeout SIGTERM whose stderr
(embedded by Node in the error message) contains the words not found is
inside the original claim's scope, yet execPioCommand does not raise
CommandTimeoutError: the message heuristic fires first and the command is
silently re-run on the platformio alias, here returning that re-run's
success record instead of the timeout error. -/
theorem execPioCommand_timeout_counterexample :
    sigtermNotFoundError.killed = true ∧
    sigtermNotFoundError.signal = some "SIGTERM" ∧
    execPioCommand spawnSigtermNotFound ["run"] {} =
      Except.ok { stdout := "rerun output", stderr := "", exitCode := ErrCode.num 0 } ∧
    execPioCommand spawnSigtermNotFound ["run"] {} ≠
      Except.error (PioError.timedOut "run" 300000) := by
  have he : execPioCommand spawnSigtermNotFound ["run"] {} =
      Except.ok { stdout := "rerun output", stderr := "", exitCode := ErrCode.num 0 } := by rfl
  refine ⟨rfl, rfl, he, ?_⟩
  rw [he]
  exact fun h => Except.noConfusion h
